import Mathlib

/-!
Shallow embedding of the data-store layer of the `arcana` repository:
the plain file-system repository (`arcana2/data/repository/file_system_dir.py`),
the abstract `DataStore` contract (`arcana/core/data/store.py`), the
BIDS metadata (de)serialisation (`arcana2/data/sets/bids.py`) and the
XNAT container-service store (`arcana/data/stores/medimage/xnat/cs.py`).

Effectful Python code is embedded as pure functions with the touched
state passed explicitly: the file system is a lookup function or an
optional document, exceptions are `Except` values, and mutation of an
object returns the updated object.
-/

namespace Arcana

/-! ## Plain file-system repository (`FileSystemDir`) -/

/-- Reserved summary directory name (`FileSystemDir.SUMMARY_NAME`). -/
def SUMMARY_NAME : String := "__ALL__"

/-- Name of the per-node fields JSON file (`FileSystemDir.FIELDS_FNAME`). -/
def FIELDS_FNAME : String := "fields.json"

/-- Name of the provenance sub-directory (`FileSystemDir.PROV_DIR`). -/
def PROV_DIR : String := "__prov__"

/-- The tree levels recognised by `FileSystemDir.file_group_path`
(the Python code dispatches on the `tree_level` string via equality with
`per_dataset` and `startswith` on `per_subject`/`per_timepoint`/`per_session`;
any other string hits `assert False`). -/
inductive TreeLevel where
  | perDataset
  | perSubject
  | perTimepoint
  | perSession
deriving DecidableEq, Repr

/-- The slice of a `Dataset` that `FileSystemDir` path resolution reads:
`dataset.name` (the root directory), `dataset.depth`, and the inverse
subject/timepoint id maps. -/
structure DatasetModel where
  name : String
  depth : Nat
  invMapSubjectId : String → String
  invMapTimepointId : String → String

/-- The slice of a data item (file-group, field or provenance record) that
`FileSystemDir.file_group_path` reads: `fname`, `tree_level`,
`subject_id`, `timepoint_id`, `namespace` and the `derived` flag. -/
structure ItemModel where
  fname : String
  treeLevel : TreeLevel
  subjectId : String
  timepointId : String
  nspace : Option String
  derived : Bool

/-- Errors raised by `FileSystemDir.file_group_path`:
`ArcanaInsufficientRepoDepthError`, and the `assert False` branches
(unrecognised tree level or depth outside {0, 1, 2}). -/
inductive RepoError where
  | insufficientDepth
  | assertionFailure
deriving DecidableEq, Repr

/-- Embedding of `FileSystemDir.file_group_path` (file_system_dir.py lines 314-363).
The directory-creation side effect (`os.makedirs` for derived items) does not
affect the returned path and is not modelled; the returned value is the
path handed back to the caller. -/
def file_group_path (ds : DatasetModel) (item : ItemModel) (fname : String) :
    Except RepoError String :=
  let root_dir := ds.name
  let depth := ds.depth
  let subject_id := ds.invMapSubjectId item.subjectId
  let timepoint_id := ds.invMapTimepointId item.timepointId
  let dirs : Except RepoError (String × String) :=
    match item.treeLevel with
    | .perDataset => .ok (SUMMARY_NAME, SUMMARY_NAME)
    | .perSubject =>
        if depth < 2 then .error .insufficientDepth
        else .ok (subject_id, SUMMARY_NAME)
    | .perTimepoint =>
        if depth < 1 then .error .insufficientDepth
        else .ok (SUMMARY_NAME, timepoint_id)
    | .perSession => .ok (subject_id, timepoint_id)
  match dirs with
  | .error e => .error e
  | .ok (subj_dir, timepoint_dir) =>
    let acq : Except RepoError String :=
      if depth = 2 then .ok (root_dir ++ "/" ++ subj_dir ++ "/" ++ timepoint_dir)
      else if depth = 1 then .ok (root_dir ++ "/" ++ subj_dir)
      else if depth = 0 then .ok root_dir
      else .error .assertionFailure
    match acq with
    | .error e => .error e
    | .ok acq_dir =>
      let sess_dir :=
        match item.nspace with
        | none => acq_dir
        | some ns => acq_dir ++ "/" ++ ns
      .ok (sess_dir ++ "/" ++ fname)

/-- Whether a `file_group_path` result is the depth-insufficiency error. -/
def isInsufficientDepth : Except RepoError String → Bool
  | .error .insufficientDepth => true
  | _ => false

/-- A scalar or array JSON value as stored in a node's `fields.json`
document.  Scalar leaves (numbers, strings, booleans) are represented by
their literal; arrays by their list of scalar literals. -/
inductive JVal where
  | prim (s : String)
  | arr (xs : List String)
deriving DecidableEq, Repr

/-- The element list of a JSON value; `list(field.value)` on an
array-valued field yields exactly the elements of its (tuple) value. -/
def JVal.elems : JVal → List String
  | .prim s => [s]
  | .arr xs => xs

/-- The slice of a `Field` that `FileSystemDir.get_field`/`put_field` read:
its name, whether it is array-valued, and its value.  The `field.dtype`
coercion applied by `get_field` (`int`/`float`/`str` casts of values that
came out of the node's own JSON document) is the identity on this value
model and is not represented. -/
structure FieldModel where
  name : String
  isArray : Bool
  value : JVal

/-- The value `put_field` stores under `field.name`: the field's value,
converted to a (JSON) list when the field is array-valued
(`dct[field.name] = list(field.value)`). -/
def fieldStoredVal (f : FieldModel) : JVal :=
  if f.isArray then .arr f.value.elems else f.value

/-- Python-dict style update of a JSON-object association list: an existing
key keeps its position and gets the new value, a new key is appended. -/
def dictSet {β : Type} (d : List (String × β)) (k : String) (v : β) :
    List (String × β) :=
  if (d.lookup k).isSome then
    d.map (fun kv => if kv.1 = k then (k, v) else kv)
  else d ++ [(k, v)]

/-- Embedding of `FileSystemDir.put_field` (file_system_dir.py lines 152-173).
The node's `fields.json` document is passed in as `doc` (`none` when the
file does not exist, in which case the code starts from `{}`); the result
is the document written back.  The `InterProcessLock` makes the
read-modify-write one atomic step, which is how it is modelled here: a
single pure function from the old document to the new one. -/
def put_field (doc : Option (List (String × JVal))) (f : FieldModel) :
    List (String × JVal) :=
  let dct := doc.getD []
  dictSet dct f.name (fieldStoredVal f)

/-- Errors surfacing from `FileSystemDir.get_field`/`get_file_group`:
`ArcanaMissingDataException`, or a propagated path-resolution error. -/
inductive StoreError where
  | missingData
  | repo (e : RepoError)
deriving DecidableEq, Repr

/-- Embedding of `FileSystemDir.get_field` (file_system_dir.py lines 103-132).
A missing `fields.json` file (IOError with `errno == ENOENT`) and a
missing key (KeyError) are both converted to
`ArcanaMissingDataException`; on success the field's value is returned
(the `dtype` coercion being the identity on this model). -/
def get_field (doc : Option (List (String × JVal))) (f : FieldModel) :
    Except StoreError JVal :=
  match doc with
  | none => .error .missingData
  | some dct =>
    match dct.lookup f.name with
    | none => .error .missingData
    | some v => .ok v

/-- The slice of a `FileGroup` that `FileSystemDir.get_file_group` reads:
the possibly-unset local path (`_path`), the side-car files recorded on the
object (`aux_files`, used when `_path` is set), the item addressing data,
and the format's `default_aux_file_paths` map from a primary path to the
named side-car paths required next to it. -/
structure FileGroupModel where
  pathOpt : Option String
  auxFiles : List (String × String)
  item : ItemModel
  defaultAux : String → List (String × String)

/-- Embedding of `FileSystemDir.get_file_group` (file_system_dir.py lines 80-101).
The on-disk state is passed in as the predicate `exists?`.  When the
file-group's `_path` is unset, the path is resolved through
`file_group_path` and the primary file and every required side-car must
exist, otherwise `ArcanaMissingDataException` is raised; when `_path` is
already set the recorded paths are returned unchecked. -/
def get_file_group (ds : DatasetModel) (existsOnDisk : String → Bool)
    (fg : FileGroupModel) : Except StoreError (String × List (String × String)) :=
  match fg.pathOpt with
  | none =>
    match file_group_path ds fg.item fg.item.fname with
    | .error e => .error (.repo e)
    | .ok primary_path =>
      let aux_files := fg.defaultAux primary_path
      if !(existsOnDisk primary_path) then .error .missingData
      else if aux_files.any (fun ap => !(existsOnDisk ap.2)) then .error .missingData
      else .ok (primary_path, aux_files)
  | some p => .ok (p, fg.auxFiles)

/-! ## Abstract `DataStore` contract (`arcana/core/data/store.py`) -/

/-- The connection-related state of a `DataStore` instance together with
instrumentation counters: `_connection_depth`, and how many times
`connect()` and `disconnect()` have been invoked on the backend. -/
structure ConnState where
  depth : Nat
  connects : Nat
  disconnects : Nat
deriving DecidableEq, Repr

/-- The initial state of a freshly constructed store
(`_connection_depth = 0`, no backend calls made yet). -/
def ConnState.init : ConnState := ⟨0, 0, 0⟩

/-- Embedding of `DataStore.__enter__` (store.py lines 341-350): calls `connect()` when
the current depth is zero, then increments the depth. -/
def storeEnter (s : ConnState) : ConnState :=
  let s1 := if s.depth = 0 then { s with connects := s.connects + 1 } else s
  { s1 with depth := s1.depth + 1 }

/-- Embedding of `DataStore.__exit__` (store.py lines 352-355): decrements the depth,
then calls `disconnect()` when the depth has returned to zero. -/
def storeExit (s : ConnState) : ConnState :=
  let s1 := { s with depth := s.depth - 1 }
  if s1.depth = 0 then { s1 with disconnects := s1.disconnects + 1 } else s1

/-- Performs `n` successive scoped acquisitions (`__enter__` calls). -/
def storeEnters : Nat → ConnState → ConnState
  | 0, s => s
  | n + 1, s => storeEnters n (storeEnter s)

/-- Performs `n` successive scoped releases (`__exit__` calls). -/
def storeExits : Nat → ConnState → ConnState
  | 0, s => s
  | n + 1, s => storeExits n (storeExit s)

/-- Model of `ArcanaNameError`: carries the offending name. -/
structure NameError where
  name : String
deriving DecidableEq, Repr

/-- Embedding of `DataStore.save` (store.py lines 192-210).  `singletonAliases` are the
keys of the built-in `singletons()` registry, `entries` the saved
configurations loaded from the config file, and `serialised` the result of
`serialise(self)`.  A name clashing with a built-in alias raises
`ArcanaNameError` before the registry file is touched; otherwise the
serialised configuration is recorded under `name` and the registry is
written back.  The pair returned is (raised error if any, registry file
contents after the call). -/
def storeSave (singletonAliases : List String) (entries : List (String × String))
    (name : String) (serialised : String) :
    Option NameError × List (String × String) :=
  if singletonAliases.contains name then (some ⟨name⟩, entries)
  else (none, dictSet entries name serialised)

/-! ## Local cache manager (remote stores) -/

/-- Errors from cached retrieval: the checksum mismatch under
`cache_only` (`ArcanaCacheError` in the contract docstring, the spec's
"cache-consistency error"), and requesting a cache-only read of an
uncached item. -/
inductive CacheError where
  | cacheConsistency
  | notCached
deriving DecidableEq, Repr

/-- How a `get_file_group_paths` call obtained the returned local path:
straight from the validated cache, or by (re-)fetching from the remote
store over the network. -/
inductive CacheOutcome where
  | fromCache (path : String)
  | refetched (path : String)
deriving DecidableEq, Repr

/-- Modelled from the spec: the concrete caching implementation of
`get_file_group_paths` lives in `Xnat.get_file_group`
(`arcana/data/stores/medimage/xnat/api.py`), which is not among the
sources; only the abstract contract (store.py lines 53-79) and the spec's
description are.  Per the spec: "If already cached and `cache_only=True`,
must validate against remote checksums; mismatch is an error
(`CacheConsistencyError`), not a silent re-fetch"; an uncached item under
`cache_only` is likewise an error, and otherwise a stale or absent cache
entry is (re-)downloaded.  `cached` holds the cached copy's checksums when
a cached copy exists. -/
def get_file_group_paths_cached (cached : Option (List (String × String)))
    (remoteChecksums : List (String × String)) (cachePath : String)
    (cacheOnly : Bool) : Except CacheError CacheOutcome :=
  match cached with
  | some cachedChecksums =>
    if cachedChecksums = remoteChecksums then .ok (.fromCache cachePath)
    else if cacheOnly then .error .cacheConsistency
    else .ok (.refetched cachePath)
  | none =>
    if cacheOnly then .error .notCached
    else .ok (.refetched cachePath)

/-! ## BIDS dataset metadata (`arcana2/data/sets/bids.py`)

Python `None` is modelled as `none` and the empty string as `some ""`,
so that the `if self.field:` truthiness tests of `save_metadata` and the
`dct.get(...)` lookups of `load_metadata` can be rendered exactly. -/

/-- Python truthiness of a `str`-or-`None` attribute: `None` and `""` are
falsy. -/
def truthyStr : Option String → Bool
  | none => false
  | some s => s ≠ ""

/-- Model of `ContainerMetadata`: `type`/`tag`/`uri`, each `None` by default. -/
structure ContainerMeta where
  ctype : Option String
  tag : Option String
  uri : Option String
deriving DecidableEq, Repr

/-- The JSON object written for a `ContainerMetadata` (which of the
`Type`/`Tag`/`URI` keys are present, and their values). -/
structure ContainerDict where
  ctype : Option String
  tag : Option String
  uri : Option String
deriving DecidableEq, Repr

/-- Embedding of `ContainerMetadata.to_dict`: each key is emitted only when its
attribute is truthy. -/
def ContainerMeta.toDict (c : ContainerMeta) : ContainerDict :=
  { ctype := if truthyStr c.ctype then c.ctype else none
    tag := if truthyStr c.tag then c.tag else none
    uri := if truthyStr c.uri then c.uri else none }

/-- Embedding of `ContainerMetadata.from_dict` on a present dict (`dct.get` per key). -/
def ContainerDict.toMeta (d : ContainerDict) : ContainerMeta :=
  { ctype := d.ctype, tag := d.tag, uri := d.uri }

/-- Model of `GeneratorMetadata`: `name` required, the rest `None` by default. -/
structure GenMeta where
  name : String
  version : Option String
  description : Option String
  codeUrl : Option String
  container : Option ContainerMeta
deriving DecidableEq, Repr

/-- The JSON object written for a `GeneratorMetadata`. -/
structure GenDict where
  name : String
  version : Option String
  description : Option String
  codeUrl : Option String
  container : Option ContainerDict
deriving DecidableEq, Repr

/-- Embedding of `GeneratorMetadata.to_dict`: `Name` always, the optional string keys
only when truthy, `Container` when a container object is attached. -/
def GenMeta.toDict (g : GenMeta) : GenDict :=
  { name := g.name
    version := if truthyStr g.version then g.version else none
    description := if truthyStr g.description then g.description else none
    codeUrl := if truthyStr g.codeUrl then g.codeUrl else none
    container := g.container.map ContainerMeta.toDict }

/-- Embedding of `GeneratorMetadata.from_dict`. -/
def GenDict.toMeta (d : GenDict) : GenMeta :=
  { name := d.name
    version := d.version
    description := d.description
    codeUrl := d.codeUrl
    container := d.container.map ContainerDict.toMeta }

/-- Model of `SourceDatasetMetadata`: `url`/`doi`/`version`, `None` by default. -/
structure SrcMeta where
  url : Option String
  doi : Option String
  version : Option String
deriving DecidableEq, Repr

/-- The JSON object written for a `SourceDatasetMetadata`. -/
structure SrcDict where
  url : Option String
  doi : Option String
  version : Option String
deriving DecidableEq, Repr

/-- Embedding of `SourceDatasetMetadata.to_dict`: keys only when truthy. -/
def SrcMeta.toDict (s : SrcMeta) : SrcDict :=
  { url := if truthyStr s.url then s.url else none
    doi := if truthyStr s.doi then s.doi else none
    version := if truthyStr s.version then s.version else none }

/-- Embedding of `SourceDatasetMetadata.from_dict` on a present dict. -/
def SrcDict.toMeta (d : SrcDict) : SrcMeta :=
  { url := d.url, doi := d.doi, version := d.version }

/-- The metadata attributes of a `BidsDataset` that
`save_metadata`/`load_metadata` serialise.  A participant's attribute dict
is an association list with distinct keys (Python dict). -/
structure BidsMeta where
  name : String
  participants : List (String × List (String × String))
  acknowledgements : Option String
  authors : List String
  bidsVersion : String
  doi : Option String
  funding : List String
  bidsType : Option String
  license : Option String
  references : List String
  howToAcknowledge : Option String
  ethicsApprovals : List String
  generatedBy : List GenMeta
  sources : List SrcMeta
  readme : Option String
deriving DecidableEq, Repr

/-- The attribute defaults of a freshly constructed `BidsDataset` (the
`attr.ib` defaults of the class), as produced by `BidsDataset.load` before
`load_metadata` runs. -/
def freshBidsMeta : BidsMeta :=
  { name := "Autogenerated-dataset"
    participants := []
    acknowledgements := some "Generic BIDS dataset"
    authors := []
    bidsVersion := "1.0.1"
    doi := none
    funding := []
    bidsType := some "derivative"
    license := some "CC0"
    references := []
    howToAcknowledge := some "see licence"
    ethicsApprovals := []
    generatedBy := []
    sources := []
    readme := none }

/-- The contents of `dataset_description.json` as written by
`save_metadata`: which keys are present and their values. -/
structure DescriptionJson where
  name : String
  bidsVersion : String
  datasetType : Option String
  licence : Option String
  authors : Option (List String)
  acknowledgements : Option String
  howToAcknowledge : Option String
  funding : Option (List String)
  ethicsApprovals : Option (List String)
  references : Option (List String)
  doi : Option String
  generatedBy : Option (List GenDict)
  sourceDatasets : Option (List SrcDict)
deriving DecidableEq, Repr

/-- The files written by `save_metadata`: `dataset_description.json`, the
`participants.tsv` table (header columns after `participant_id`, then one
row of id and column values per participant), and the `README` file when
one is written.  The model records the information content of the TSV; the
tab-separated textual encoding itself (which assumes ids and values free
of tabs/newlines and no attribute column literally named
`participant_id`) is not re-modelled. -/
structure SavedMetadata where
  description : DescriptionJson
  tsvCols : List String
  tsvRows : List (String × List String)
  readme : Option String
deriving DecidableEq, Repr

/-- Errors raised by `save_metadata`: `ArcanaEmptyDatasetError` when there
are no participants, and the `KeyError` from `pcpt_attrs[c]` when a later
participant lacks a column taken from the first participant's keys. -/
inductive SaveError where
  | emptyDataset
  | missingColumn
deriving DecidableEq, Repr

/-- The TSV row values of one participant, in the column order of the
first participant (`[pcpt_attrs[c] for c in col_names]`); `none` when a
column is missing (Python `KeyError`). -/
def rowVals (cols : List String) (attrs : List (String × String)) :
    Option (List String) :=
  cols.mapM (fun c => attrs.lookup c)

/-- Embedding of `BidsDataset.save_metadata` (bids.py lines 179-221). -/
def save_metadata (m : BidsMeta) : Except SaveError SavedMetadata :=
  match m.participants with
  | [] => .error .emptyDataset
  | first :: _ =>
    let cols := first.2.map Prod.fst
    match m.participants.mapM
        (fun p => (rowVals cols p.2).map (fun vs => (p.1, vs))) with
    | none => .error .missingColumn
    | some rows =>
      .ok {
        description := {
          name := m.name
          bidsVersion := m.bidsVersion
          datasetType := if truthyStr m.bidsType then m.bidsType else none
          licence := if truthyStr m.license then m.license else none
          authors := if m.authors.isEmpty then none else some m.authors
          acknowledgements :=
            if truthyStr m.acknowledgements then m.acknowledgements else none
          howToAcknowledge :=
            if truthyStr m.howToAcknowledge then m.howToAcknowledge else none
          funding := if m.funding.isEmpty then none else some m.funding
          ethicsApprovals :=
            if m.ethicsApprovals.isEmpty then none else some m.ethicsApprovals
          references := if m.references.isEmpty then none else some m.references
          doi := if truthyStr m.doi then m.doi else none
          generatedBy :=
            if m.bidsType = some "derivative"
            then some (m.generatedBy.map GenMeta.toDict) else none
          sourceDatasets :=
            if m.sources.isEmpty then none else some (m.sources.map SrcMeta.toDict) }
        tsvCols := cols
        tsvRows := rows
        readme := m.readme }

/-- Error raised by `load_metadata` when a `derivative`-typed description
lacks the `GeneratedBy` key (`ArcanaError`). -/
inductive LoadError where
  | generatedByRequired
deriving DecidableEq, Repr

/-- Embedding of `BidsDataset.load_metadata` (bids.py lines 223-264), applied to the
saved files.  `init` is the dataset object the method runs on (its
`generated_by` and `sources` attributes survive when the corresponding
keys are absent; every other attribute is overwritten). -/
def load_metadata (init : BidsMeta) (files : SavedMetadata) :
    Except LoadError BidsMeta :=
  let d := files.description
  let genBy : Except LoadError (List GenMeta) :=
    if d.datasetType = some "derivative" then
      match d.generatedBy with
      | none => .error .generatedByRequired
      | some gs => .ok (gs.map GenDict.toMeta)
    else .ok init.generatedBy
  match genBy with
  | .error e => .error e
  | .ok generatedBy =>
    .ok {
      name := d.name
      bidsVersion := d.bidsVersion
      bidsType := d.datasetType
      license := d.licence
      authors := (d.authors).getD []
      acknowledgements := d.acknowledgements
      howToAcknowledge := d.howToAcknowledge
      funding := (d.funding).getD []
      ethicsApprovals := (d.ethicsApprovals).getD []
      references := (d.references).getD []
      doi := d.doi
      generatedBy := generatedBy
      sources :=
        match d.sourceDatasets with
        | none => init.sources
        | some ss => ss.map SrcDict.toMeta
      participants := files.tsvRows.map (fun r => (r.1, files.tsvCols.zip r.2))
      readme := files.readme }

/-- The save-then-reload composite exercised by `test_bids_roundtrip`
(test_bids.py lines 16-71): `save_metadata` on the in-memory dataset, then
`BidsDataset.load` (a freshly constructed dataset followed by
`load_metadata`) on the same root directory.  `none` when either step
raises. -/
def metadata_roundtrip (m : BidsMeta) : Option BidsMeta :=
  match save_metadata m with
  | .error _ => none
  | .ok files =>
    match load_metadata freshBidsMeta files with
    | .error _ => none
    | .ok m2 => some m2

/-- An optional string attribute that survives the truthiness-guarded
save: `None` or a non-empty string (the empty string is dropped by
`save_metadata` and reloads as `None`). -/
def strAttrOk (v : Option String) : Bool :=
  v != some ""

/-- A container metadata record whose optional fields survive the
truthiness-guarded save. -/
def containerOk : Option ContainerMeta → Bool
  | none => true
  | some c => strAttrOk c.ctype && strAttrOk c.tag && strAttrOk c.uri

/-- A generator metadata record whose optional fields survive the
truthiness-guarded save. -/
def genOk (g : GenMeta) : Bool :=
  strAttrOk g.version && strAttrOk g.description && strAttrOk g.codeUrl
    && containerOk g.container

/-- A source-dataset metadata record whose optional fields survive the
truthiness-guarded save. -/
def srcOk (s : SrcMeta) : Bool :=
  strAttrOk s.url && strAttrOk s.doi && strAttrOk s.version

/-! ## XNAT container-service store (`arcana/data/stores/medimage/xnat/cs.py`) -/

/-- The frequencies of the `Clinical` data space
(`arcana/data/spaces/medimage.py`). -/
inductive ClinFreq where
  | dataset
  | group
  | member
  | timepoint
  | subject
  | batch
  | matchedpoint
  | session
deriving DecidableEq, Repr

/-- The slice of a `DataNode` read by `XnatViaCS`: its frequency and id. -/
structure DataNodeModel where
  frequency : ClinFreq
  id : String
deriving DecidableEq, Repr

/-- The slice of a `FileGroup` read and written by `XnatViaCS`
`get_file_group_paths`/`put_file_group_paths`: remote `uri` (nullable),
`is_dir`, logical `path` and owning `data_node`. -/
structure XFileGroupModel where
  uri : Option String
  isDir : Bool
  path : String
  node : DataNodeModel
deriving DecidableEq, Repr

/-- The slice of an `XnatViaCS` store read by these methods: the
configured `frequency`, the input/output archive mounts and the local
cache directory. -/
structure XnatViaCSModel where
  frequency : ClinFreq
  inputMount : String
  outputMount : String
  cacheDir : String
deriving DecidableEq, Repr

/-- Model of `ArcanaNoDirectXnatMountException`. -/
inductive MountError where
  | noDirectMount
deriving DecidableEq, Repr

/-- Embedding of `XnatViaCS.get_input_mount` (cs.py lines 165-172): the direct archive
mount is visible when the store's configured frequency equals the node's,
or when a dataset-frequency store reads a session node (whose data sits in
the per-session sub-directory of the mount). -/
def get_input_mount (store : XnatViaCSModel) (fg : XFileGroupModel) :
    Except MountError String :=
  if store.frequency = fg.node.frequency then .ok store.inputMount
  else if store.frequency = .dataset && fg.node.frequency = .session then
    .ok (store.inputMount ++ "/" ++ fg.node.id)
  else .error .noDirectMount

/-- A character allowed in the project/subject/experiment id groups of the
URI pattern in `XnatViaCS.get_file_group_paths` (`[a-zA-Z0-9\-_]`). -/
def isUriIdChar (c : Char) : Bool :=
  c.isAlphanum || c = '-' || c = '_'

/-- Consume one non-empty id segment followed by a `/`; returns the
remainder after the slash. -/
def takeIdSeg (s : String) : Option String :=
  let seg := s.takeWhile isUriIdChar
  if seg ≠ "" && (s.drop seg.length).startsWith "/" then
    some (s.drop (seg.length + 1))
  else none

/-- Consume an optional `<lit>/<id>/` group (regex `(?:lit/[id]+/)?`): if
the whole group does not match, nothing is consumed. -/
def optIdGroup (lit : String) (s : String) : String :=
  if s.startsWith (lit ++ "/") then
    match takeIdSeg (s.drop (lit.length + 1)) with
    | some rest => rest
    | none => s
  else s

/-- The anchored pattern
`/data/(?:archive/)?projects/[id]+/(?:subjects/[id]+/)?(?:experiments/[id]+/)?(?P<path>.*)`
matched against `file_group.uri` in `XnatViaCS.get_file_group_paths`;
`none` when the match fails (in Python the subsequent `.group` call then
raises on `None`). -/
def parseUriRelPath (uri : String) : Option String :=
  if uri.startsWith "/data/" then
    let s := uri.drop 6
    let s := if s.startsWith "archive/" then s.drop 8 else s
    if s.startsWith "projects/" then
      match takeIdSeg (s.drop 9) with
      | some s =>
        let s := optIdGroup "subjects" s
        let s := optIdGroup "experiments" s
        some s
      | none => none
    else none
  else none

/-- Python `pat in s` substring test. -/
def containsSubstr (s pat : String) : Bool :=
  (s.splitOn pat).length > 1

/-- The `scans`/`resources` renaming applied to the URI-relative path
(cs.py lines 114-116). -/
def archiveRelPath (p : String) : String :=
  let p1 :=
    if containsSubstr p "scans" then
      (p.replace "scans" "SCANS").replace "resources/" ""
    else p
  p1.replace "resources" "RESOURCES"

/-- Modelled from the spec: `Xnat.cache_path` (in
`arcana/data/stores/medimage/xnat/api.py`, not among the sources) — "a
deterministic cache directory derived from the node's path plus item
name". -/
def cache_path (store : XnatViaCSModel) (fg : XFileGroupModel) : String :=
  store.cacheDir ++ "/" ++ fg.node.id ++ "/" ++ fg.path

/-- Embedding of `XnatViaCS.file_group_stem_path` (cs.py lines 161-163):
`output_mount.joinpath(*path.split('/'))`. -/
def file_group_stem_path (store : XnatViaCSModel) (fg : XFileGroupModel) : String :=
  store.outputMount ++ "/" ++ String.intercalate "/" (fg.path.splitOn "/")

/-- The `AttributeError` hit when the URI does not match the pattern. -/
inductive XnatError where
  | uriNoMatch
deriving DecidableEq, Repr

/-- Embedding of `XnatViaCS.get_file_group_paths` (cs.py lines 99-138).  The archive
file system is passed in as `iterdir`; `apiPaths` stands for the result of
the network-API fallback `super().get_file_group(file_group)` (whose body,
in `api.py`, is not among the sources).  On the direct-mount path a
directory-typed file-group is materialised as a scratch cache directory
with the resource's non-catalog members symlinked in (the symlinking
mutates only the cache, not the returned value, which is the scratch
directory itself); a file-typed group returns the resource directory's
member listing. -/
def get_file_group_paths_cs (store : XnatViaCSModel)
    (iterdir : String → List String) (apiPaths : List String)
    (fg : XFileGroupModel) : Except XnatError (List String) :=
  match get_input_mount store fg with
  | .error .noDirectMount => .ok apiPaths
  | .ok input_mount =>
    match fg.uri with
    | some uri =>
      match parseUriRelPath uri with
      | none => .error .uriNoMatch
      | some relPath =>
        let resource_path := input_mount ++ "/" ++ archiveRelPath relPath
        if fg.isDir then .ok [cache_path store fg]
        else .ok (iterdir resource_path)
    | none =>
      let stem_path := file_group_stem_path store fg
      if fg.isDir then .ok [stem_path]
      else .ok (iterdir stem_path)

/-- Modelled from the spec: `Xnat._make_uri` (in `api.py`, not among the
sources) — the remote URI "assigned deterministically from the node's
path". -/
def make_uri (node : DataNodeModel) : String :=
  "/data/archive/experiments/" ++ node.id

/-- Modelled from the spec: `FileGroup.copy_ext` (in
`arcana/core/data/format.py`, not among the sources) — places the file at
the stem path, carrying over the source file's extension. -/
def copy_ext (src dest : String) : String :=
  let base := ((src.splitOn "/").getLastD src)
  match base.splitOn "." with
  | [] => dest
  | [_] => dest
  | parts => dest ++ "." ++ parts.getLastD ""

/-- Embedding of `XnatViaCS.put_file_group_paths` (cs.py lines 140-159): copies each
supplied path onto the output-mount stem path, then assigns the
file-group's URI from its node and logical path (unconditionally), and
returns the cached paths.  The updated file-group is returned alongside
them. -/
def put_file_group_paths_cs (store : XnatViaCSModel) (fg : XFileGroupModel)
    (fsPaths : List String) : XFileGroupModel × List String :=
  let stem_path := file_group_stem_path store fg
  let cache_paths := fsPaths.map
    (fun p => if fg.isDir then stem_path else copy_ext p stem_path)
  ({ fg with uri := some (make_uri fg.node ++ "/RESOURCES/" ++ fg.path) },
   cache_paths)

/-! ## Helper lemmas -/

theorem lookup_map_replace {β : Type} (k : String) (v : β) (d : List (String × β))
    (h : (d.lookup k).isSome) :
    (d.map (fun kv => if kv.1 = k then (k, v) else kv)).lookup k = some v := by
  induction d with
  | nil => simp [List.lookup] at h
  | cons kv tl ih =>
    obtain ⟨a, b⟩ := kv
    simp only [List.map_cons] at *
    by_cases hak : a = k
    · rw [show (if ((a, b) : String × β).1 = k then (k, v) else (a, b)) = (k, v)
          from if_pos hak]
      rw [List.lookup_cons]
      simp
    · rw [show (if ((a, b) : String × β).1 = k then (k, v) else (a, b)) = (a, b)
          from if_neg hak]
      have hka : (k == a) = false := beq_eq_false_iff_ne.mpr (Ne.symm hak)
      rw [List.lookup_cons] at h ⊢
      simp only [hka] at h ⊢
      exact ih h

theorem lookup_map_replace_other {β : Type} (k k' : String) (v : β)
    (d : List (String × β)) (h : k' ≠ k) :
    (d.map (fun kv => if kv.1 = k then (k, v) else kv)).lookup k' = d.lookup k' := by
  induction d with
  | nil => simp
  | cons kv tl ih =>
    obtain ⟨a, b⟩ := kv
    simp only [List.map_cons]
    by_cases hak : a = k
    · rw [show (if ((a, b) : String × β).1 = k then (k, v) else (a, b)) = (k, v)
          from if_pos hak]
      have h1 : (k' == k) = false := beq_eq_false_iff_ne.mpr h
      have h2 : (k' == a) = false := beq_eq_false_iff_ne.mpr (hak ▸ h)
      rw [List.lookup_cons, List.lookup_cons]
      simp only [h1, h2]
      exact ih
    · rw [show (if ((a, b) : String × β).1 = k then (k, v) else (a, b)) = (a, b)
          from if_neg hak]
      rw [List.lookup_cons, List.lookup_cons]
      cases hke : (k' == a) with
      | true => rfl
      | false => exact ih

theorem lookup_append_new {β : Type} (k : String) (v : β) (d : List (String × β))
    (h : d.lookup k = none) :
    (d ++ [(k, v)]).lookup k = some v := by
  induction d with
  | nil => simp [List.lookup]
  | cons kv tl ih =>
    obtain ⟨a, b⟩ := kv
    rw [List.cons_append, List.lookup_cons]
    rw [List.lookup_cons] at h
    cases hka : (k == a) with
    | true => simp [hka] at h
    | false =>
      simp only [hka] at h ⊢
      exact ih h

theorem lookup_append_other {β : Type} (k k' : String) (v : β)
    (d : List (String × β)) (h : k' ≠ k) :
    (d ++ [(k, v)]).lookup k' = d.lookup k' := by
  induction d with
  | nil =>
    have h1 : (k' == k) = false := beq_eq_false_iff_ne.mpr h
    simp [List.lookup, h1]
  | cons kv tl ih =>
    obtain ⟨a, b⟩ := kv
    rw [List.cons_append, List.lookup_cons, List.lookup_cons]
    cases hka : (k' == a) with
    | true => rfl
    | false => exact ih

theorem dictSet_lookup_self {β : Type} (d : List (String × β)) (k : String) (v : β) :
    (dictSet d k v).lookup k = some v := by
  unfold dictSet
  by_cases h : (d.lookup k).isSome
  · simp only [if_pos h]
    exact lookup_map_replace k v d h
  · simp only [if_neg h]
    exact lookup_append_new k v d (by
      cases hl : d.lookup k with
      | none => rfl
      | some b => rw [hl] at h; simp at h)

theorem dictSet_lookup_other {β : Type} (d : List (String × β)) (k k' : String)
    (v : β) (h : k' ≠ k) :
    (dictSet d k v).lookup k' = d.lookup k' := by
  unfold dictSet
  by_cases hs : (d.lookup k).isSome
  · simp only [if_pos hs]
    exact lookup_map_replace_other k k' v d h
  · simp only [if_neg hs]
    exact lookup_append_other k k' v d h

/-! ## Claim theorems -/

/-- Claim C1: for the plain file-system store at depth 2 (with identity id
maps, as in the spec's scenario), `file_group_path` sends a `per_dataset`
item to `{root}/{SUMMARY}/{SUMMARY}/{fname}`, a `per_subject` item to
`{root}/{subject_id}/{SUMMARY}/{fname}`, and a `per_session` item to
`{root}/{subject_id}/{timepoint_id}/{fname}`, where `SUMMARY` is the
reserved `__ALL__` name; a non-null namespace adds exactly one extra path
segment below the frequency-resolved directory. -/
theorem C1_depth2_path_mapping (ds : DatasetModel) (item : ItemModel) (fname : String)
    (hd : ds.depth = 2)
    (hs : ds.invMapSubjectId item.subjectId = item.subjectId)
    (ht : ds.invMapTimepointId item.timepointId = item.timepointId) :
    (item.treeLevel = .perDataset → item.nspace = none →
      file_group_path ds item fname =
        .ok (ds.name ++ "/" ++ SUMMARY_NAME ++ "/" ++ SUMMARY_NAME ++ "/" ++ fname))
    ∧ (item.treeLevel = .perSubject → item.nspace = none →
      file_group_path ds item fname =
        .ok (ds.name ++ "/" ++ item.subjectId ++ "/" ++ SUMMARY_NAME ++ "/" ++ fname))
    ∧ (item.treeLevel = .perSession → item.nspace = none →
      file_group_path ds item fname =
        .ok (ds.name ++ "/" ++ item.subjectId ++ "/" ++ item.timepointId
              ++ "/" ++ fname))
    ∧ (∀ ns, item.nspace = some ns →
      file_group_path ds item fname =
        file_group_path ds { item with nspace := none } (ns ++ "/" ++ fname)) := by
  refine ⟨?_, ?_, ?_, ?_⟩
  · intro htl hns
    simp [file_group_path, htl, hns, hd, hs, ht]
  · intro htl hns
    simp [file_group_path, htl, hns, hd, hs, ht]
  · intro htl hns
    simp [file_group_path, htl, hns, hd, hs, ht]
  · intro ns hns
    cases htl : item.treeLevel <;>
      simp [file_group_path, htl, hns, hd, hs, ht, String.append_assoc]

/-- Witness for C1 at a concrete depth-2 dataset with identity id maps. -/
theorem C1_witness :
    file_group_path ⟨"root", 2, id, id⟩
        ⟨"f.txt", .perSubject, "S1", "T1", none, false⟩ "f.txt"
      = .ok ("root" ++ "/" ++ "S1" ++ "/" ++ SUMMARY_NAME ++ "/" ++ "f.txt") :=
  (C1_depth2_path_mapping ⟨"root", 2, id, id⟩
    ⟨"f.txt", .perSubject, "S1", "T1", none, false⟩ "f.txt" rfl rfl rfl).2.1 rfl rfl

/-- Claim C6 counterexample: a `per_session` item in a depth-0 repository
needs subject and timepoint sub-directories that the configured depth does
not provide, yet `file_group_path` returns `{root}/{fname}` instead of
raising the depth-insufficiency error. -/
theorem C6_counterexample :
    file_group_path ⟨"root", 0, id, id⟩
        ⟨"f.txt", .perSession, "S1", "T1", none, false⟩ "f.txt"
      = .ok "root/f.txt" := rfl

/-- Claim C6 (amended): `file_group_path` raises the depth-insufficiency
error exactly for `per_subject` items when the configured depth is below 2
and for `per_timepoint` items when it is 0; `per_dataset` and
`per_session` items never raise it (a `per_session` item in a too-shallow
repository silently collapses onto the available directory levels). -/
theorem C6_amended_depth_error_characterisation (ds : DatasetModel)
    (item : ItemModel) (fname : String) :
    isInsufficientDepth (file_group_path ds item fname) = true ↔
      ((item.treeLevel = .perSubject ∧ ds.depth < 2) ∨
        (item.treeLevel = .perTimepoint ∧ ds.depth = 0)) := by
  cases htl : item.treeLevel <;>
    simp only [file_group_path, htl] <;>
    split_ifs with h1 h2 h3 <;>
    simp_all [isInsufficientDepth]

/-- Claim C7: on the plain file-system store, `get_field` raises the
missing-data error whenever the node's fields JSON file does not exist, or
exists but lacks the field's name; and `get_file_group`, resolving an item
whose local path is not yet set, raises the missing-data error whenever
the primary file or a required side-car is absent from disk.  An absent
item is never reported as an empty result. -/
theorem C7_missing_data_errors (doc : Option (List (String × JVal)))
    (f : FieldModel) (ds : DatasetModel) (existsOnDisk : String → Bool)
    (fg : FileGroupModel) :
    (doc = none → get_field doc f = .error .missingData)
    ∧ (∀ dct, doc = some dct → dct.lookup f.name = none →
        get_field doc f = .error .missingData)
    ∧ (∀ primary_path, fg.pathOpt = none →
        file_group_path ds fg.item fg.item.fname = .ok primary_path →
        (existsOnDisk primary_path = false ∨
          ∃ a ∈ fg.defaultAux primary_path, existsOnDisk a.2 = false) →
        get_file_group ds existsOnDisk fg = .error .missingData) := by
  refine ⟨?_, ?_, ?_⟩
  · intro h
    simp [get_field, h]
  · intro dct hdoc hmiss
    simp [get_field, hdoc, hmiss]
  · intro primary_path hp hpath hmiss
    unfold get_file_group
    rw [hp, hpath]
    rcases hmiss with hprim | ⟨a, ha, haux⟩
    · simp [hprim]
    · by_cases hprim : existsOnDisk primary_path
      · have hany : (fg.defaultAux primary_path).any
            (fun ap => !(existsOnDisk ap.2)) = true := by
          rw [List.any_eq_true]
          exact ⟨a, ha, by simp [haux]⟩
        simp [hprim, hany]
      · simp [hprim]

/-- Witness for C7: a missing fields file, a fields file without the key,
and a file-group whose primary file is absent on an empty disk. -/
theorem C7_witness :
    (get_field (none : Option (List (String × JVal))) ⟨"fieldA", false, .prim "1"⟩
        = .error .missingData)
    ∧ (get_field (some [("other", JVal.prim "2")]) ⟨"fieldA", false, .prim "1"⟩
        = .error .missingData)
    ∧ (get_file_group ⟨"root", 0, id, id⟩ (fun _ => false)
        ⟨none, [], ⟨"f.txt", .perDataset, "S1", "T1", none, false⟩, fun _ => []⟩
        = .error .missingData) :=
  ⟨(C7_missing_data_errors none ⟨"fieldA", false, .prim "1"⟩ ⟨"root", 0, id, id⟩
      (fun _ => false)
      ⟨none, [], ⟨"f.txt", .perDataset, "S1", "T1", none, false⟩, fun _ => []⟩).1 rfl,
   (C7_missing_data_errors (some [("other", JVal.prim "2")])
      ⟨"fieldA", false, .prim "1"⟩ ⟨"root", 0, id, id⟩ (fun _ => false)
      ⟨none, [], ⟨"f.txt", .perDataset, "S1", "T1", none, false⟩,
        fun _ => []⟩).2.1 _ rfl rfl,
   (C7_missing_data_errors none ⟨"fieldA", false, .prim "1"⟩ ⟨"root", 0, id, id⟩
      (fun _ => false)
      ⟨none, [], ⟨"f.txt", .perDataset, "S1", "T1", none, false⟩,
        fun _ => []⟩).2.2 "root/f.txt" rfl rfl (Or.inl rfl)⟩

/-- Claim C10: after `put_field`, the node's fields document maps the
field's name to its value (as a list when array-valued), every other key
keeps its previous value, and a previously missing document is created
with exactly the one new entry.  The read-modify-write is a single atomic
step of the model, mirroring the per-file lock. -/
theorem C10_put_field_frame (doc : Option (List (String × JVal))) (f : FieldModel) :
    (put_field doc f).lookup f.name = some (fieldStoredVal f)
    ∧ (∀ k, k ≠ f.name → (put_field doc f).lookup k = (doc.getD []).lookup k)
    ∧ (doc = none → put_field doc f = [(f.name, fieldStoredVal f)]) := by
  refine ⟨?_, ?_, ?_⟩
  · exact dictSet_lookup_self _ _ _
  · intro k hk
    exact dictSet_lookup_other _ _ _ _ hk
  · intro h
    simp [put_field, h, dictSet, List.lookup]

/-- Witness for C10 on a concrete two-entry document. -/
theorem C10_witness :
    ((put_field (some [("a", JVal.prim "1"), ("b", JVal.prim "2")])
        ⟨"a", true, .arr ["3", "4"]⟩).lookup "a" = some (.arr ["3", "4"]))
    ∧ ((put_field (some [("a", JVal.prim "1"), ("b", JVal.prim "2")])
        ⟨"a", true, .arr ["3", "4"]⟩).lookup "b" = some (.prim "2"))
    ∧ (put_field none ⟨"c", false, .prim "5"⟩ = [("c", JVal.prim "5")]) :=
  ⟨(C10_put_field_frame (some [("a", JVal.prim "1"), ("b", JVal.prim "2")])
      ⟨"a", true, .arr ["3", "4"]⟩).1,
   ((C10_put_field_frame (some [("a", JVal.prim "1"), ("b", JVal.prim "2")])
      ⟨"a", true, .arr ["3", "4"]⟩).2.1 "b" (by decide)).trans (by decide),
   (C10_put_field_frame none ⟨"c", false, .prim "5"⟩).2.2 rfl⟩

theorem storeEnters_of_deep (n : Nat) :
    ∀ s : ConnState, 1 ≤ s.depth →
      storeEnters n s = ⟨s.depth + n, s.connects, s.disconnects⟩ := by
  induction n with
  | zero => intro s hs; simp [storeEnters]
  | succ m ih =>
    intro s hs
    obtain ⟨d, c, dc⟩ := s
    simp only [storeEnters]
    have hd : d ≠ 0 := by simp at hs; omega
    rw [show storeEnter ⟨d, c, dc⟩ = ⟨d + 1, c, dc⟩ from by
      simp [storeEnter, hd]]
    rw [ih ⟨d + 1, c, dc⟩ (by simp)]
    simp
    omega

theorem storeEnters_init_eq (n : Nat) (hn : 1 ≤ n) :
    storeEnters n ConnState.init = ⟨n, 1, 0⟩ := by
  obtain ⟨m, rfl⟩ : ∃ m, n = m + 1 := ⟨n - 1, by omega⟩
  show storeEnters m (storeEnter ConnState.init) = _
  rw [show storeEnter ConnState.init = ⟨1, 1, 0⟩ from rfl]
  rw [storeEnters_of_deep m ⟨1, 1, 0⟩ (by simp)]
  simp
  omega

theorem storeExits_shallow (j : Nat) :
    ∀ s : ConnState, j < s.depth →
      storeExits j s = ⟨s.depth - j, s.connects, s.disconnects⟩ := by
  induction j with
  | zero => intro s hs; simp [storeExits]
  | succ m ih =>
    intro s hs
    obtain ⟨d, c, dc⟩ := s
    simp only [storeExits]
    have hd : d - 1 ≠ 0 := by simp at hs; omega
    rw [show storeExit ⟨d, c, dc⟩ = ⟨d - 1, c, dc⟩ from by
      simp [storeExit, hd]]
    rw [ih ⟨d - 1, c, dc⟩ (by simp at hs ⊢; omega)]
    simp
    omega

theorem storeExits_add (a b : Nat) :
    ∀ s : ConnState, storeExits (a + b) s = storeExits b (storeExits a s) := by
  induction a with
  | zero => intro s; simp [storeExits]
  | succ m ih =>
    intro s
    rw [show m + 1 + b = (m + b) + 1 from by omega]
    show storeExits (m + b) (storeExit s) = _
    rw [ih (storeExit s)]
    rfl

theorem storeExits_full (n c dc : Nat) (hn : 1 ≤ n) :
    storeExits n (⟨n, c, dc⟩ : ConnState) = ⟨0, c, dc + 1⟩ := by
  obtain ⟨m, rfl⟩ : ∃ m, n = m + 1 := ⟨n - 1, by omega⟩
  rw [storeExits_add m 1]
  rcases Nat.eq_zero_or_pos m with hm | hm
  · subst hm
    simp [storeExits, storeExit]
  · rw [storeExits_shallow m ⟨m + 1, c, dc⟩ (by simp)]
    simp only [Nat.add_sub_cancel_left]
    simp [storeExits, storeExit]

/-- Claim C2: a sequence of `n ≥ 1` nested scoped acquisitions followed by
`n` matching releases calls `connect()` exactly once — on the outermost
acquisition — and `disconnect()` exactly once — on the outermost release;
acquisitions at positive depth and releases that do not return the depth
to zero perform neither call. -/
theorem C2_connection_reentrancy (n : Nat) (hn : 1 ≤ n) :
    ((storeEnters n ConnState.init).connects = 1
      ∧ (storeEnters n ConnState.init).disconnects = 0)
    ∧ ((storeExits n (storeEnters n ConnState.init)).connects = 1
      ∧ (storeExits n (storeEnters n ConnState.init)).disconnects = 1)
    ∧ (storeEnter ConnState.init).connects = 1
    ∧ (∀ s : ConnState, 1 ≤ s.depth →
        (storeEnter s).connects = s.connects
          ∧ (storeEnter s).disconnects = s.disconnects)
    ∧ (∀ s : ConnState, 2 ≤ s.depth →
        (storeExit s).connects = s.connects
          ∧ (storeExit s).disconnects = s.disconnects)
    ∧ (∀ j, j + 1 < n →
        (storeExits (j + 1) (storeEnters n ConnState.init)).disconnects = 0) := by
  rw [storeEnters_init_eq n hn]
  refine ⟨by simp, ?_, rfl, ?_, ?_, ?_⟩
  · rw [storeExits_full n 1 0 hn]
    exact ⟨rfl, rfl⟩
  · intro s hs
    obtain ⟨d, c, dc⟩ := s
    have hd : d ≠ 0 := by simp at hs; omega
    simp [storeEnter, hd]
  · intro s hs
    obtain ⟨d, c, dc⟩ := s
    have hd : d - 1 ≠ 0 := by simp at hs; omega
    simp [storeExit, hd]
  · intro j hj
    rw [storeExits_shallow (j + 1) ⟨n, 1, 0⟩ (by simpa using hj)]

/-- Witness for C2 at nesting depth 3: one `connect`, one `disconnect`. -/
theorem C2_witness :
    1 ≤ 3
    ∧ (storeExits 3 (storeEnters 3 ConnState.init)).connects = 1
    ∧ (storeExits 3 (storeEnters 3 ConnState.init)).disconnects = 1 :=
  ⟨by decide, (C2_connection_reentrancy 3 (by decide)).2.1⟩

/-- Claim C5: `DataStore.save` under a name matching a built-in backend
alias raises `ArcanaNameError` carrying the offending name and leaves the
saved-store registry untouched; under a non-colliding name it records the
serialised configuration in the registry under that name and raises
nothing. -/
theorem C5_store_save_collision (singles : List String)
    (entries : List (String × String)) (name serialised : String) :
    (singles.contains name = true →
      storeSave singles entries name serialised = (some ⟨name⟩, entries))
    ∧ (singles.contains name = false →
      (storeSave singles entries name serialised).1 = none
        ∧ (storeSave singles entries name serialised).2.lookup name
            = some serialised) := by
  constructor
  · intro h
    unfold storeSave
    rw [if_pos h]
  · intro h
    unfold storeSave
    rw [if_neg (show ¬(singles.contains name = true) from by
      rw [h]; exact Bool.false_ne_true)]
    exact ⟨rfl, dictSet_lookup_self _ _ _⟩

/-- Witness for C5 with the built-in aliases containing `file`: saving as
`file` errors and preserves the registry; saving as `my-xnat` records the
configuration. -/
theorem C5_witness :
    (storeSave ["file", "bids", "xnat"] [("old", "cfg0")] "file" "cfg1"
        = (some ⟨"file"⟩, [("old", "cfg0")]))
    ∧ ((storeSave ["file", "bids", "xnat"] [("old", "cfg0")] "my-xnat" "cfg1").1
        = none)
    ∧ ((storeSave ["file", "bids", "xnat"] [("old", "cfg0")] "my-xnat"
        "cfg1").2.lookup "my-xnat" = some "cfg1") :=
  ⟨(C5_store_save_collision ["file", "bids", "xnat"] [("old", "cfg0")] "file"
      "cfg1").1 (by decide),
   ((C5_store_save_collision ["file", "bids", "xnat"] [("old", "cfg0")] "my-xnat"
      "cfg1").2 (by decide)).1,
   ((C5_store_save_collision ["file", "bids", "xnat"] [("old", "cfg0")] "my-xnat"
      "cfg1").2 (by decide)).2⟩

/-- Claim C3 (against the spec-modelled cache manager, the concrete
implementation living outside these sources): with `cache_only=True` and a
cached copy whose checksums differ from the remote checksums, retrieval
raises the cache-consistency error — it neither returns the corrupted
cached path nor re-fetches from the remote store. -/
theorem C3_cache_only_checksum_gate (cachedCs remoteCs : List (String × String))
    (cachePath : String) (h : cachedCs ≠ remoteCs) :
    get_file_group_paths_cached (some cachedCs) remoteCs cachePath true
      = .error .cacheConsistency := by
  simp [get_file_group_paths_cached, h]

/-- Witness for C3: a cached copy with a corrupted MD5 digest. -/
theorem C3_witness :
    get_file_group_paths_cached (some [(".", "d41d8cd98f")]) [(".", "900150983c")]
        "/cache/sub1/scan1.nii" true = .error .cacheConsistency :=
  C3_cache_only_checksum_gate [(".", "d41d8cd98f")] [(".", "900150983c")]
    "/cache/sub1/scan1.nii" (by decide)

/-- Claim C8: `XnatViaCS.get_file_group_paths` uses the direct archive
mount exactly when the store's configured frequency makes the node's data
visible on the mount — same frequency as the node, or a dataset-frequency
store reading a session node — and otherwise returns the result of the
network-API retrieval path.  When the mount is used, the result is
independent of the network-API path. -/
theorem C8_direct_mount_selection (store : XnatViaCSModel) (fg : XFileGroupModel)
    (iterdir : String → List String) (apiPaths : List String) :
    ((store.frequency = fg.node.frequency ∨
        (store.frequency = .dataset ∧ fg.node.frequency = .session)) ↔
      ∃ m, get_input_mount store fg = .ok m)
    ∧ (¬(store.frequency = fg.node.frequency ∨
          (store.frequency = .dataset ∧ fg.node.frequency = .session)) →
        get_file_group_paths_cs store iterdir apiPaths fg = .ok apiPaths)
    ∧ ((store.frequency = fg.node.frequency ∨
          (store.frequency = .dataset ∧ fg.node.frequency = .session)) →
        ∀ apiPaths2, get_file_group_paths_cs store iterdir apiPaths fg
          = get_file_group_paths_cs store iterdir apiPaths2 fg) := by
  have hok : (store.frequency = fg.node.frequency ∨
      (store.frequency = .dataset ∧ fg.node.frequency = .session)) ↔
      ∃ m, get_input_mount store fg = .ok m := by
    constructor
    · intro hc
      unfold get_input_mount
      by_cases h1 : store.frequency = fg.node.frequency
      · exact ⟨_, by rw [if_pos h1]⟩
      · obtain ⟨h2, h3⟩ := hc.resolve_left h1
        refine ⟨store.inputMount ++ "/" ++ fg.node.id, ?_⟩
        rw [if_neg h1, if_pos (by simp [h2, h3])]
    · rintro ⟨m, hm⟩
      by_contra hc
      obtain ⟨hA, hB⟩ := not_or.mp hc
      unfold get_input_mount at hm
      rw [if_neg hA, if_neg (by simpa using hB)] at hm
      exact absurd hm (by simp)
  refine ⟨hok, ?_, ?_⟩
  · intro hc
    have hgm : get_input_mount store fg = .error .noDirectMount := by
      cases hgm : get_input_mount store fg with
      | error e => cases e; rfl
      | ok m => exact absurd (hok.mpr ⟨m, hgm⟩) hc
    simp only [get_file_group_paths_cs, hgm]
  · intro hc apiPaths2
    obtain ⟨m, hm⟩ := hok.mp hc
    simp only [get_file_group_paths_cs, hm]

/-- Witness for C8: a subject-frequency store cannot see a session node on
the mount and falls back to the API result; a dataset-frequency store
reading a session node uses the mount regardless of the API result. -/
theorem C8_witness :
    (get_file_group_paths_cs ⟨.subject, "/input", "/output", "/cache"⟩
        (fun _ => []) ["/cache/api.nii"]
        ⟨some "/data/projects/P1/resources/T1w", false, "T1w",
          ⟨.session, "E1"⟩⟩
      = .ok ["/cache/api.nii"])
    ∧ (get_file_group_paths_cs ⟨.dataset, "/input", "/output", "/cache"⟩
        (fun _ => []) ["/cache/api.nii"]
        ⟨some "/data/projects/P1/resources/T1w", false, "T1w",
          ⟨.session, "E1"⟩⟩
      = get_file_group_paths_cs ⟨.dataset, "/input", "/output", "/cache"⟩
        (fun _ => []) ["/cache/other.nii"]
        ⟨some "/data/projects/P1/resources/T1w", false, "T1w",
          ⟨.session, "E1"⟩⟩) :=
  ⟨(C8_direct_mount_selection ⟨.subject, "/input", "/output", "/cache"⟩
      ⟨some "/data/projects/P1/resources/T1w", false, "T1w", ⟨.session, "E1"⟩⟩
      (fun _ => []) ["/cache/api.nii"]).2.1 (by decide),
   (C8_direct_mount_selection ⟨.dataset, "/input", "/output", "/cache"⟩
      ⟨some "/data/projects/P1/resources/T1w", false, "T1w", ⟨.session, "E1"⟩⟩
      (fun _ => []) ["/cache/api.nii"]).2.2 (by decide) ["/cache/other.nii"]⟩

/-- Claim C9 counterexample: `put_file_group_paths` on a file-group whose
URI is already set overwrites it — the deterministically re-derived URI
replaces the previously stored one, so an already-set URI is not
immutable. -/
theorem C9_counterexample :
    ((put_file_group_paths_cs ⟨.session, "/input", "/output", "/cache"⟩
        ⟨some "X", false, "deriv/out", ⟨.session, "E1"⟩⟩
        ["/tmp/out.nii"]).1.uri ≠ some "X")
    ∧ (⟨some "X", false, "deriv/out", ⟨.session, "E1"⟩⟩
        : XFileGroupModel).uri = some "X" := by
  decide

/-- Claim C9 (amended): `put_file_group_paths` never changes the
file-group's logical path (or its node or directory flag), and assigns the
URI deterministically from the node and the path — overwriting any
previously set URI; URI immutability therefore holds only for file-groups
whose URI was previously unset (freshly created derivatives). -/
theorem C9_amended_put_behaviour (store : XnatViaCSModel) (fg : XFileGroupModel)
    (fsPaths : List String) :
    ((put_file_group_paths_cs store fg fsPaths).1.path = fg.path)
    ∧ ((put_file_group_paths_cs store fg fsPaths).1.node = fg.node)
    ∧ ((put_file_group_paths_cs store fg fsPaths).1.isDir = fg.isDir)
    ∧ ((put_file_group_paths_cs store fg fsPaths).1.uri
        = some (make_uri fg.node ++ "/RESOURCES/" ++ fg.path)) :=
  ⟨rfl, rfl, rfl, rfl⟩

theorem optionMapM_congr {α β : Type} (l : List α) (f g : α → Option β)
    (h : ∀ a ∈ l, f a = g a) : l.mapM f = l.mapM g := by
  induction l with
  | nil => rfl
  | cons a tl ih =>
    rw [List.mapM_cons, List.mapM_cons, h a (List.mem_cons_self a tl),
      ih (fun x hx => h x (List.mem_cons_of_mem a hx))]

theorem optionMapM_some {α β : Type} (l : List α) (f : α → Option β) (g : α → β)
    (h : ∀ a ∈ l, f a = some (g a)) : l.mapM f = some (l.map g) := by
  induction l with
  | nil => rfl
  | cons a tl ih =>
    rw [List.mapM_cons, h a (List.mem_cons_self a tl),
      ih (fun x hx => h x (List.mem_cons_of_mem a hx))]
    rfl

theorem rowVals_self (attrs : List (String × String))
    (hnd : (attrs.map Prod.fst).Nodup) :
    rowVals (attrs.map Prod.fst) attrs = some (attrs.map Prod.snd) := by
  induction attrs with
  | nil => rfl
  | cons kv tl ih =>
    obtain ⟨k, v⟩ := kv
    simp only [List.map_cons] at hnd ⊢
    obtain ⟨hk, htl⟩ := List.nodup_cons.mp hnd
    have hcongr : (tl.map Prod.fst).mapM (fun c => List.lookup c ((k, v) :: tl))
        = (tl.map Prod.fst).mapM (fun c => List.lookup c tl) := by
      apply optionMapM_congr
      intro c hc
      have hck : (c == k) = false :=
        beq_eq_false_iff_ne.mpr (fun he => hk (he ▸ hc))
      rw [List.lookup_cons]
      simp [hck]
    have hhead : List.lookup k ((k, v) :: tl) = some v := by
      rw [List.lookup_cons]; simp
    unfold rowVals at ih ⊢
    rw [List.mapM_cons, hhead, hcongr, ih htl]
    rfl

theorem zip_keys_vals (l : List (String × String)) :
    (l.map Prod.fst).zip (l.map Prod.snd) = l :=
  (List.zip_of_prod rfl rfl).symm

theorem optStr_keep (v : Option String) (h : strAttrOk v = true) :
    (if truthyStr v then v else none) = v := by
  cases v with
  | none => simp [truthyStr]
  | some s =>
    have hs : s ≠ "" := by
      intro he
      rw [he] at h
      simp [strAttrOk] at h
    simp [truthyStr, hs]

theorem optList_keep (l : List String) :
    (if l.isEmpty then none else some l).getD [] = l := by
  cases l <;> simp

theorem container_roundtrip (c : Option ContainerMeta)
    (h : containerOk c = true) :
    (c.map ContainerMeta.toDict).map ContainerDict.toMeta = c := by
  cases c with
  | none => rfl
  | some cc =>
    obtain ⟨t, tg, u⟩ := cc
    simp only [containerOk, Bool.and_eq_true] at h
    obtain ⟨⟨h1, h2⟩, h3⟩ := h
    simp only [Option.map_some', ContainerMeta.toDict, ContainerDict.toMeta,
      optStr_keep t h1, optStr_keep tg h2, optStr_keep u h3]

theorem gen_roundtrip (g : GenMeta) (h : genOk g = true) :
    GenDict.toMeta (GenMeta.toDict g) = g := by
  obtain ⟨n, ver, desc, cu, cont⟩ := g
  simp only [genOk, Bool.and_eq_true] at h
  obtain ⟨⟨⟨h1, h2⟩, h3⟩, h4⟩ := h
  simp only [GenMeta.toDict, GenDict.toMeta, optStr_keep ver h1,
    optStr_keep desc h2, optStr_keep cu h3, container_roundtrip cont h4]

theorem src_roundtrip (s : SrcMeta) (h : srcOk s = true) :
    SrcDict.toMeta (SrcMeta.toDict s) = s := by
  obtain ⟨u, d, v⟩ := s
  simp only [srcOk, Bool.and_eq_true] at h
  obtain ⟨⟨h1, h2⟩, h3⟩ := h
  simp only [SrcMeta.toDict, SrcDict.toMeta, optStr_keep u h1,
    optStr_keep d h2, optStr_keep v h3]

/-- Claim C4 counterexample: a BIDS dataset with one participant and an
empty-string DOI.  `save_metadata` drops the falsy `DatasetDOI` key, so
reloading succeeds but yields `doi = None` — the reloaded dataset is not
equal by value to the one saved. -/
theorem C4_counterexample :
    (metadata_roundtrip { freshBidsMeta with
        participants := [("sub-1", [])], doi := some "" }
      ≠ some { freshBidsMeta with
        participants := [("sub-1", [])], doi := some "" })
    ∧ (metadata_roundtrip { freshBidsMeta with
        participants := [("sub-1", [])], doi := some "" }).isSome = true := by
  decide

/-- Claim C4 (amended): saving and reloading reconstructs an equal-by-value
dataset provided the dataset is well-formed for the format: at least one
participant, all participants carrying the same attribute columns (in the
first participant's order, without duplicates), the optional scalar
metadata fields (`type`, `licence`, DOI, acknowledgement fields, and the
optional sub-fields of generator/source records) either `None` or
non-empty — empty strings are dropped by the truthiness-guarded save —
and a generator list only present on `derivative`-typed datasets (it is
not saved otherwise). -/
theorem C4_amended_metadata_roundtrip (m : BidsMeta) (cols : List String)
    (hne : m.participants ≠ [])
    (hcols : ∀ p ∈ m.participants, p.2.map Prod.fst = cols)
    (hnd : cols.Nodup)
    (htype : strAttrOk m.bidsType = true)
    (hlic : strAttrOk m.license = true)
    (hack : strAttrOk m.acknowledgements = true)
    (hhow : strAttrOk m.howToAcknowledge = true)
    (hdoi : strAttrOk m.doi = true)
    (hgen : m.bidsType = some "derivative" → ∀ g ∈ m.generatedBy, genOk g = true)
    (hgen2 : m.bidsType ≠ some "derivative" → m.generatedBy = [])
    (hsrc : ∀ s ∈ m.sources, srcOk s = true) :
    metadata_roundtrip m = some m := by
  obtain ⟨nm, parts, ack, auth, bv, doi, fund, btype, lic, refs, how, eth, gb,
    srcs, rd⟩ := m
  simp only at hne hcols htype hlic hack hhow hdoi hgen hgen2 hsrc
  obtain ⟨first, rest, rfl⟩ : ∃ f r, parts = f :: r := by
    cases parts with
    | nil => exact absurd rfl hne
    | cons f r => exact ⟨f, r, rfl⟩
  have hfirst : first.2.map Prod.fst = cols :=
    hcols first (List.mem_cons_self _ _)
  have hrows : (first :: rest).mapM
      (fun p => (rowVals (first.2.map Prod.fst) p.2).map (fun vs => (p.1, vs)))
      = some ((first :: rest).map (fun p => (p.1, p.2.map Prod.snd))) := by
    apply optionMapM_some
    intro p hp
    have hkeys : p.2.map Prod.fst = cols := hcols p hp
    rw [hfirst, ← hkeys,
      rowVals_self p.2 (by rw [hkeys]; exact hnd)]
    rfl
  unfold metadata_roundtrip save_metadata
  simp only [hrows]
  unfold load_metadata
  rw [optStr_keep btype htype]
  have hparts : List.map ((fun r => (r.1, (List.map Prod.fst first.2).zip r.2))
        ∘ fun p => (p.1, List.map Prod.snd p.2)) (first :: rest) = first :: rest := by
    refine (List.map_congr_left ?_).trans (List.map_id _)
    intro p hp
    have hkeys : List.map Prod.fst p.2 = cols := hcols p hp
    simp only [Function.comp_apply, id_eq]
    rw [hfirst, ← hkeys, zip_keys_vals]
  have hsrcs : (match (if srcs.isEmpty = true then none
        else some (List.map SrcMeta.toDict srcs)) with
      | none => freshBidsMeta.sources
      | some ss => List.map SrcDict.toMeta ss) = srcs := by
    cases srcs with
    | nil => rfl
    | cons s0 stl =>
      simp only [List.isEmpty_cons, Bool.false_eq_true, if_false, List.map_map]
      refine (List.map_congr_left ?_).trans (List.map_id _)
      intro s hs
      simp only [Function.comp_apply, id_eq]
      exact src_roundtrip s (hsrc s hs)
  by_cases hder : btype = some "derivative"
  · subst hder
    have hgens : List.map GenDict.toMeta (List.map GenMeta.toDict gb) = gb := by
      rw [List.map_map]
      refine (List.map_congr_left ?_).trans (List.map_id _)
      intro g hg
      simp only [Function.comp_apply, id_eq]
      exact gen_roundtrip g (hgen rfl g hg)
    simp only [optStr_keep ack hack, optStr_keep how hhow, optStr_keep lic hlic,
      optStr_keep doi hdoi, optList_keep auth, optList_keep fund,
      optList_keep eth, optList_keep refs, if_pos rfl, if_true, List.map_map,
      hparts, hgens, hsrcs]
  · have hgb : gb = [] := hgen2 hder
    subst hgb
    simp only [freshBidsMeta] at hsrcs
    simp only [optStr_keep ack hack, optStr_keep how hhow, optStr_keep lic hlic,
      optStr_keep doi hdoi, optList_keep auth, optList_keep fund,
      optList_keep eth, optList_keep refs, if_neg hder, List.map_map,
      hparts, hsrcs, freshBidsMeta]

/-- Witness for C4 (amended) at a concrete well-formed dataset with two
participants, authors, a DOI, a generator record and a readme. -/
theorem C4_amended_witness :
    metadata_roundtrip { freshBidsMeta with
        participants := [("sub-1", [("age", "30")]), ("sub-2", [("age", "40")])]
        authors := ["A. Author"]
        doi := some "10.1000/xyz"
        generatedBy := [⟨"arcana", some "0.1", none, none, none⟩]
        readme := some "A dummy readme" }
      = some { freshBidsMeta with
        participants := [("sub-1", [("age", "30")]), ("sub-2", [("age", "40")])]
        authors := ["A. Author"]
        doi := some "10.1000/xyz"
        generatedBy := [⟨"arcana", some "0.1", none, none, none⟩]
        readme := some "A dummy readme" } :=
  C4_amended_metadata_roundtrip _ ["age"] (by decide) (by decide) (by decide)
    (by decide) (by decide) (by decide) (by decide) (by decide)
    (fun _ => by decide) (fun h => absurd rfl h) (by decide)

end Arcana
